import Mathlib

/-!
# Verification of the Coral Gables property-data processor

Shallow embedding of the three Python scripts of the repository
(`CGProperties_Splitter.py`, `create_rag_data.py`, `simple_data_analysis.py`)
together with proofs about the grouping/partition engine, positional chunking,
filename sanitization, CSV export, load-error handling, per-record formatting
and the value-bucket statistics.

Python scalar values are modelled by `Val` (records in this dataset carry only
scalar JSON property values); Python string operations are modelled on the
underlying character lists so that all definitions compute by kernel reduction.
-/

namespace CG

/-- A Python scalar value as found in a record's property bag
(`None`, booleans, ints, floats, strings).  Floats are modelled as rationals:
every claim settled here depends only on comparisons, never on IEEE rounding. -/
inductive Val where
  | null
  | bool (b : Bool)
  | int (n : Int)
  | float (q : ℚ)
  | str (s : String)
deriving Repr, DecidableEq

/-- Numeric view of a value: Python treats `bool`, `int` and `float` as
mutually comparable numbers (`True == 1`, `2020 == 2020.0`). -/
def Val.numQ : Val → Option ℚ
  | .bool b => some (if b then 1 else 0)
  | .int n => some (n : ℚ)
  | .float q => some q
  | _ => none

/-- Python `==` on scalar values: numbers compare numerically across
`bool`/`int`/`float`, strings compare as strings, `None` equals only `None`,
and values of different non-numeric categories are unequal. -/
def pyEq (a b : Val) : Bool :=
  match a.numQ, b.numQ with
  | some x, some y => x == y
  | _, _ =>
    match a, b with
    | .null, .null => true
    | .str s, .str t => s == t
    | _, _ => false

/-- Python truthiness of a scalar value. -/
def pyTruthy : Val → Bool
  | .null => false
  | .bool b => b
  | .int n => n != 0
  | .float q => q != 0
  | .str s => s != ""

theorem pyEq_refl (a : Val) : pyEq a a = true := by
  cases a <;> simp [pyEq, Val.numQ]

theorem pyEq_symm {a b : Val} (h : pyEq a b = true) : pyEq b a = true := by
  cases a <;> cases b <;> simp_all [pyEq, Val.numQ]

theorem pyEq_trans {a b c : Val} (h₁ : pyEq a b = true) (h₂ : pyEq b c = true) :
    pyEq a c = true := by
  cases a <;> cases b <;> cases c <;> simp_all [pyEq, Val.numQ]

/-- One GeoJSON feature: its property bag (`feature.get('properties', {})`,
an ordered string-keyed mapping) and its geometry coordinates
(`feature.get('geometry', {}).get('coordinates', [])`). -/
structure Feature where
  props : List (String × Val)
  coords : List Val
deriving Repr, DecidableEq

/-- `get_property_value(feature, key, default)` from `CGProperties_Splitter.py`:
look the key up in the property bag, falling back to the default. -/
def get_property_value (f : Feature) (key : String) (dflt : Val) : Val :=
  (f.props.lookup key).getD dflt

/-- The default sentinel `"Unknown"` used by all keyed splits. -/
def unknown : Val := .str "Unknown"

/-- One step of the dict-building loop
`if k not in d: d[k] = []` followed by `d[k].append(feature)`:
append the record to the group of the first key comparing `==` to `k`,
or add a fresh group at the end.  Python dicts keep the first-inserted key
object and iterate in insertion order, which the list order models. -/
def addToGroup : List (Val × List Feature) → Val → Feature → List (Val × List Feature)
  | [], k, r => [(k, [r])]
  | (k', g) :: rest, k, r =>
    if pyEq k k' then (k', g ++ [r]) :: rest
    else (k', g) :: addToGroup rest k r

/-- The grouping loop shared by `split_by_owner`, `split_by_zoning`,
`split_by_trash_route`, `split_by_municipality`, `split_by_neighborhood` and
`split_by_year_built`: one left-to-right pass inserting each feature into the
group of its extracted key. -/
def partitionByKey (keyFn : Feature → Val) (D : List Feature) :
    List (Val × List Feature) :=
  D.foldl (fun acc r => addToGroup acc (keyFn r) r) []

/-- Key extractor of `split_by_owner`. -/
def ownerKey (f : Feature) : Val :=
  get_property_value f "AddressPoints.TRUE_OWNER" unknown

/-- Key extractor of `split_by_zoning`. -/
def zoningKey (f : Feature) : Val :=
  get_property_value f "AddressPoints.PRIMARY_ZO" unknown

/-- Key extractor of `split_by_trash_route`. -/
def routeKey (f : Feature) : Val :=
  get_property_value f "AddressPoints_AddSpatialJoin_10.Route" unknown

/-- Key extractor of `split_by_municipality`. -/
def municipalityKey (f : Feature) : Val :=
  get_property_value f "AddressPoints.MUNICIPALI" unknown

/-- Key extractor of `split_by_neighborhood`. -/
def neighborhoodKey (f : Feature) : Val :=
  get_property_value f "AddressPoints.NEIGHBORHO" unknown

/-- Key extractor of `split_by_year_built`. -/
def yearBuiltKey (f : Feature) : Val :=
  get_property_value f "AddressPoints.YEAR_BUILT" unknown

/-- The groups built by `split_by_owner`. -/
def split_by_owner (D : List Feature) : List (Val × List Feature) :=
  partitionByKey ownerKey D

/-- The groups built by `split_by_zoning`. -/
def split_by_zoning (D : List Feature) : List (Val × List Feature) :=
  partitionByKey zoningKey D

/-- The groups built by `split_by_trash_route`. -/
def split_by_trash_route (D : List Feature) : List (Val × List Feature) :=
  partitionByKey routeKey D

/-- The groups built by `split_by_municipality`. -/
def split_by_municipality (D : List Feature) : List (Val × List Feature) :=
  partitionByKey municipalityKey D

/-- The groups built by `split_by_neighborhood`. -/
def split_by_neighborhood (D : List Feature) : List (Val × List Feature) :=
  partitionByKey neighborhoodKey D

/-- The groups built by `split_by_year_built`. -/
def split_by_year_built (D : List Feature) : List (Val × List Feature) :=
  partitionByKey yearBuiltKey D

/-- First occurrences of a key list under Python `==`, in order: the key
iteration order of the dict built by the grouping loops. -/
def firstOccKeys (l : List Val) : List Val :=
  l.foldl (fun acc k => if acc.any (fun k' => pyEq k k') then acc else acc ++ [k]) []

/-- The step function of `firstOccKeys`. -/
def keyStep (acc : List Val) (k : Val) : List Val :=
  if acc.any (fun k' => pyEq k k') then acc else acc ++ [k]

/-- A three-record example dataset (owners Alice, Bob, Alice). -/
def exA : Feature := ⟨[("AddressPoints.TRUE_OWNER", .str "Alice")], []⟩

/-- Second example record. -/
def exB : Feature := ⟨[("AddressPoints.TRUE_OWNER", .str "Bob")], []⟩

/-- Example dataset used to instantiate the partition theorems. -/
def exDataset : List Feature := [exA, exB, exA]

/-- Python `str()` of a scalar value.  The float case renders the rational's
canonical form — a simplification of CPython's float repr on which no settled
claim depends (all string-coercion claims concern ints and strings). -/
def pyStr : Val → String
  | .null => "None"
  | .bool b => if b then "True" else "False"
  | .int n => toString n
  | .float q => toString q
  | .str s => s

/-- The character replacement of the filename cleaners:
`.replace(' ', '_').replace('/', '_').replace('\\', '_')`. -/
def sanitizeChar (c : Char) : Char :=
  if c = ' ' ∨ c = '/' ∨ c = '\\' then '_' else c

/-- `str(key).replace(' ', '_').replace('/', '_').replace('\\', '_')[:maxLen]`:
the filename cleaning applied to every group key (`maxLen` is 50 for category
keys, 30 for address-range endpoints, 20 for year keys). -/
def clean_key (k : Val) (maxLen : Nat) : String :=
  String.mk (((pyStr k).data.map sanitizeChar).take maxLen)

/-- Output filename of an owner group: `f"owner_{clean_owner}.json"`. -/
def owner_filename (k : Val) : String :=
  "owner_" ++ clean_key k 50 ++ ".json"

/-- Output filename of a year-built group: `f"year_built_{clean_year}.json"`
(the year cleaner truncates to 20 characters). -/
def year_built_filename (k : Val) : String :=
  "year_built_" ++ clean_key k 20 ++ ".json"

/-- The write sequence of `split_by_owner`: one `(filename, group)` pair per
group, written in group-insertion order with overwrite semantics. -/
def owner_split_writes (D : List Feature) : List (String × List Feature) :=
  (split_by_owner D).map (fun p => (owner_filename p.1, p.2))

/-- Contents a file holds after a write sequence finishes: the payload of the
last write targeting that name (each `open(..., 'w')` truncates). -/
def overwrite_result (writes : List (String × List Feature)) (name : String) :
    Option (List Feature) :=
  (writes.reverse.find? (fun w => w.1 == name)).map Prod.snd

/-- Two records are grouped together when some group of the partition holds
both. -/
def inSameGroup (part : List (Val × List Feature)) (r s : Feature) : Prop :=
  ∃ p ∈ part, r ∈ p.2 ∧ s ∈ p.2

/-- Record whose year-built property is the number `2020`. -/
def yNum : Feature := ⟨[("AddressPoints.YEAR_BUILT", .int 2020)], []⟩

/-- Record whose year-built property is the string `"2020"`. -/
def yStr : Feature := ⟨[("AddressPoints.YEAR_BUILT", .str "2020")], []⟩

/-- Two-record dataset mixing a numeric and a string year value. -/
def yDataset : List Feature := [yNum, yStr]

/-- A 60-character owner key. -/
def longKeyA : Val := .str (String.mk (List.replicate 60 'A'))

/-- A 61-character owner key extending `longKeyA`. -/
def longKeyAB : Val := .str (String.mk (List.replicate 60 'A' ++ ['B']))

/-- Record owned by the 60-`A` key. -/
def ownA : Feature := ⟨[("AddressPoints.TRUE_OWNER", longKeyA)], []⟩

/-- Record owned by the 60-`A`-then-`B` key. -/
def ownAB : Feature := ⟨[("AddressPoints.TRUE_OWNER", longKeyAB)], []⟩

/-- Dataset whose two owner keys collide after sanitization. -/
def collisionDataset : List Feature := [ownA, ownAB]

/-- The union of all property keys across every record of a group
(`all_fields = set(); all_fields.update(properties.keys())`), listed without
duplicates. -/
def allFields (g : List Feature) : List String :=
  ((g.map (fun r => r.props.map Prod.fst)).flatten).dedup

/-- Lexicographic strict order on character lists by code point: Python's
string `<`, which drives `sorted` on the field names. -/
def charsLt : List Char → List Char → Bool
  | [], [] => false
  | [], _ :: _ => true
  | _ :: _, [] => false
  | x :: xs, y :: ys => if x = y then charsLt xs ys else decide (x < y)

/-- Strict lexicographic order on strings. -/
def pyStrLt (a b : String) : Prop := charsLt a.data b.data = true

/-- Non-strict lexicographic order on strings (total: `a ≤ b ↔ ¬ b < a`). -/
def pyStrLe (a b : String) : Prop := charsLt b.data a.data = false

instance : DecidableRel pyStrLt :=
  fun a b => inferInstanceAs (Decidable (charsLt a.data b.data = true))

instance : DecidableRel pyStrLe :=
  fun a b => inferInstanceAs (Decidable (charsLt b.data a.data = false))

/-- `fieldnames = sorted(list(all_fields))`: the lexicographically sorted
union of the group's property keys. -/
def csvFields (g : List Feature) : List String :=
  List.insertionSort pyStrLe (allFields g)

/-- One CSV data row:
`row = {field: properties.get(field, '') for field in fieldnames}` —
the record's value for each header field, empty string when absent. -/
def csvRow (fields : List String) (r : Feature) : List Val :=
  fields.map (fun fld => (r.props.lookup fld).getD (.str ""))

/-- `export_split_to_csv(split_type, data_dict, filename_prefix)`: for each
nonempty group (`if not features: continue`) one file
`f"{filename_prefix}_{clean_key}.csv"` holding the group-local header row and
one data row per record in group order. -/
def export_split_to_csv ( filename_prefix : String)
    (groups : List (Val × List Feature)) :
    List (String × List String × List (List Val)) :=
  (groups.filter (fun p => !p.2.isEmpty)).map
    (fun p => ( filename_prefix ++ "_" ++ clean_key p.1 50 ++ ".csv",
      csvFields p.2, p.2.map (csvRow (csvFields p.2))))

/-- `export_to_csv`: header and rows for the whole loaded dataset. -/
def export_to_csv (D : List Feature) : List String × List (List Val) :=
  (csvFields D, D.map (csvRow (csvFields D)))

/-- Strip leading and trailing whitespace (Python `str.strip()`, also
`float()`'s tolerance of surrounding whitespace). -/
def trimChars (l : List Char) : List Char :=
  ((l.dropWhile Char.isWhitespace).reverse.dropWhile Char.isWhitespace).reverse

/-- Python `value.strip()` on a string. -/
def pyStrip (s : String) : String :=
  String.mk (trimChars s.data)

/-- All characters are decimal digits. -/
def allDigits (l : List Char) : Bool := l.all Char.isDigit

/-- Value of a digit run. -/
def digitsVal (l : List Char) : Nat :=
  l.foldl (fun acc c => acc * 10 + (c.toNat - 48)) 0

/-- CPython `float()` on a string: surrounding whitespace is stripped, an
optional sign precedes digits with an optional decimal point.  Exponents,
`inf`/`nan` and digit underscores are treated as non-numeric — a narrowing
no settled claim exercises. -/
def pyParseFloat (s : String) : Option ℚ :=
  let t := trimChars s.data
  let sgn : ℚ := match t with
    | '-' :: _ => -1
    | _ => 1
  let body : List Char := match t with
    | '-' :: rest => rest
    | '+' :: rest => rest
    | _ => t
  match body.splitOn '.' with
  | [ip] =>
    if ip ≠ [] ∧ allDigits ip then some (sgn * (digitsVal ip : ℚ)) else none
  | [ip, fp] =>
    if (ip ≠ [] ∨ fp ≠ []) ∧ allDigits ip ∧ allDigits fp then
      some (sgn * ((digitsVal ip : ℚ) + (digitsVal fp : ℚ) / ((10 : ℚ) ^ fp.length)))
    else none
  | _ => none

/-- `float(value)` on a scalar value: numbers and booleans convert, strings
parse as decimal literals (`none` is a raised `ValueError`), and `None`
raises `TypeError` (`none`). -/
def pyFloatConv : Val → Option ℚ
  | .bool b => some (if b then 1 else 0)
  | .int n => some (n : ℚ)
  | .float q => some q
  | .str s => pyParseFloat s
  | .null => none

/-- The body of `safe_float`'s `try`:
`float(value) if value and value != 'Unknown' else 0.0`; a failed
conversion is a raised `ValueError`/`TypeError`. -/
def safe_float_body (v : Val) : Except String ℚ :=
  if pyTruthy v && !pyEq v (.str "Unknown") then
    match pyFloatConv v with
    | some q => .ok q
    | none => .error "ValueError"
  else .ok 0

/-- `safe_float`: the `except (ValueError, TypeError): return 0.0` wrapper —
total, never raising. -/
def safe_float (v : Val) : ℚ :=
  match safe_float_body v with
  | .ok q => q
  | .error _ => 0

/-- A record's extracted total value:
`self.safe_float(properties.get('AddressPoints.TOTAL_VAL', 0))`. -/
def total_value (f : Feature) : ℚ :=
  safe_float ((f.props.lookup "AddressPoints.TOTAL_VAL").getD (.int 0))

/-- The fixed monetary ranges of `value_analysis` (`none` is
`float('inf')`). -/
def value_ranges : List (ℚ × Option ℚ × String) :=
  [(0, some 100000, "Under $100k"),
   (100000, some 250000, "$100k-$250k"),
   (250000, some 500000, "$250k-$500k"),
   (500000, some 1000000, "$500k-$1M"),
   (1000000, some 2500000, "$1M-$2.5M"),
   (2500000, some 5000000, "$2.5M-$5M"),
   (5000000, none, "Over $5M")]

/-- Whether a total value is counted in a bucket:
`min_val <= v < max_val` for a finite bucket, `v >= min_val and v > 0` for
the infinite top bucket. -/
def inBucket (v : ℚ) (lo : ℚ) (hi : Option ℚ) : Bool :=
  match hi with
  | some h => decide (lo ≤ v) && decide (v < h)
  | none => decide (lo ≤ v) && decide (0 < v)

/-- `value_analysis`: the label → count distribution of the dataset's total
values over the fixed ranges. -/
def value_analysis (D : List Feature) : List (String × Nat) :=
  value_ranges.map
    (fun r => (r.2.2, (D.map total_value).countP (fun v => inBucket v r.1 r.2.1)))

/-- Record with total value `-1`. -/
def negValueRec : Feature := ⟨[("AddressPoints.TOTAL_VAL", .int (-1))], []⟩

/-- Record with total value 50000. -/
def val50k : Feature := ⟨[("AddressPoints.TOTAL_VAL", .int 50000)], []⟩

/-- Record with total value 1200000. -/
def val1200k : Feature := ⟨[("AddressPoints.TOTAL_VAL", .int 1200000)], []⟩

/-- Dataset whose total values are 50000 and 1200000. -/
def valDataset : List Feature := [val50k, val1200k]

/-- A parsed JSON document. -/
inductive Json where
  | null
  | bool (b : Bool)
  | num (q : ℚ)
  | str (s : String)
  | arr (elems : List Json)
  | obj (fields : List (String × Json))
deriving Repr

/-- What `json.load` can yield for one run: the input file is missing, the
file holds syntactically invalid JSON, or parsing succeeds with a document. -/
inductive LoadInput where
  | missingFile
  | invalidJson
  | parsed (doc : Json)

/-- `data.get('type') == 'FeatureCollection'`: only a string value equal to
`"FeatureCollection"` passes (a missing key yields `None`, which compares
unequal). -/
def tagIsFeatureCollection (fields : List (String × Json)) : Bool :=
  match fields.lookup "type" with
  | some (.str t) => t == "FeatureCollection"
  | _ => false

/-- Result of the splitter's `load_data`: either the process terminated
(non-zero) with a diagnostic, or the feature list was stored, possibly with
a warning. -/
inductive SplitterLoad where
  | exited (code : Nat) (diagnostic : String)
  | loaded (features : Json) (warning : Option String)

/-- `CGProperties_Splitter.load_data`: missing file and invalid JSON print a
diagnostic and `sys.exit(1)`; a parsed object is checked for the
FeatureCollection tag, storing `data.get('features', [])` on success and an
empty list plus a warning otherwise; a parsed non-object crashes on
`data.get` (uncaught `AttributeError`, exit status 1). -/
def splitter_load_data : LoadInput → SplitterLoad
  | .missingFile => .exited 1 "Error: File not found"
  | .invalidJson => .exited 1 "Error: Invalid JSON format"
  | .parsed (.obj fields) =>
    if tagIsFeatureCollection fields then
      .loaded ((fields.lookup "features").getD (.arr [])) none
    else
      .loaded (.arr []) (some "Warning: File is not a GeoJSON FeatureCollection")
  | .parsed _ => .exited 1 "AttributeError"

/-- Exit status of a splitter run: 1 when `load_data` terminates the
process, else the run continues to completion and exits 0. -/
def splitter_exit_code (inp : LoadInput) : Nat :=
  match splitter_load_data inp with
  | .exited c _ => c
  | .loaded _ _ => 0

/-- Outcome of the analyzer's `run_complete_analysis`. -/
inductive AnalyzerOutcome where
  | crashed (diagnostic : String)
  | aborted (diagnostic : String)
  | analyzed (features : Json) (warning : Option String)

/-- `simple_data_analysis`: `load_data` catches missing-file and invalid-JSON
errors, prints a diagnostic and returns `False`, upon which
`run_complete_analysis` stops; a parsed object is handled with the same
FeatureCollection tolerance as the splitter; a parsed non-object raises an
uncaught `AttributeError` on `data.get`. -/
def analyzer_run : LoadInput → AnalyzerOutcome
  | .missingFile => .aborted "Error: File not found"
  | .invalidJson => .aborted "Error: Invalid JSON format"
  | .parsed (.obj fields) =>
    if tagIsFeatureCollection fields then
      .analyzed ((fields.lookup "features").getD (.arr [])) none
    else
      .analyzed (.arr []) (some "Warning: File is not a GeoJSON FeatureCollection")
  | .parsed _ => .crashed "AttributeError"

/-- Exit status of an analyzer run: `main()` ignores the Boolean returned by
`run_complete_analysis`, so only an uncaught exception exits non-zero. -/
def analyzer_exit_code (inp : LoadInput) : Nat :=
  match analyzer_run inp with
  | .crashed _ => 1
  | _ => 0

/-- `CoralGablesRAGProcessor.load_data` on a parsed document: a JSON array is
taken directly as the record list, a JSON object must contain the key
`'properties'` (whose value becomes the record list), and every other shape
prints "Unexpected JSON structure" and returns `False` (`none` here). -/
def rag_load_data : Json → Option Json
  | .arr elems => some (.arr elems)
  | .obj fields => fields.lookup "properties"
  | _ => none

/-- A GeoJSON FeatureCollection document as the RAG processor would see it:
`type` and `features` keys, no `properties` key. -/
def fcDoc : Json := .obj [("type", .str "FeatureCollection"), ("features", .arr [])]

/-- A parsed object that is not a FeatureCollection. -/
def topoFields : List (String × Json) := [("type", .str "Topology")]

/-- CSV example record with fields `b`, `a`. -/
def csvR1 : Feature := ⟨[("b", .int 1), ("a", .int 2)], []⟩

/-- CSV example record with field `c` only. -/
def csvR2 : Feature := ⟨[("c", .str "x")], []⟩

/-- CSV example group with heterogeneous field sets. -/
def csvG : List Feature := [csvR1, csvR2]

/-- Positional chunking: the slice loop `features[i:i+n]` expressed by
repeatedly peeling off `n` records.  Callers pass `n ≥ 1` (CPython `range`
raises on step 0). -/
def chunkList (n : Nat) (l : List α) : List (List α) :=
  match l with
  | [] => []
  | a :: t => (a :: t.take (n - 1)) :: chunkList n (t.drop (n - 1))
termination_by l.length
decreasing_by
  simp only [List.length_drop, List.length_cons]
  omega

/-- `split_by_chunk_size` of the splitter:
`for i in range(0, len(self.features), chunk_size)` with slice
`features[i:i + chunk_size]`; the loop visits the indices `j * n` for
`j < ceil(len / n)`. -/
def split_by_chunk_size (n : Nat) (l : List α) : List (List α) :=
  (List.range ((l.length + n - 1) / n)).map (fun j => (l.drop (j * n)).take n)

/-- `create_story_chunks` of the RAG processor:
`num_chunks = (total_properties + chunk_size - 1) // chunk_size`, chunk `i`
holding the slice `properties[i*size : min((i+1)*size, total)]`. -/
def create_story_chunks (size : Nat) (properties : List α) : List (List α) :=
  (List.range ((properties.length + size - 1) / size)).map
    (fun i => (properties.drop (i * size)).take
      (min ((i + 1) * size) properties.length - i * size))

/-- `process_all` of the RAG processor: stops with no output when
`load_data` returns `False`; otherwise chunks the loaded record list into
story files.  (A `properties` value that is not a list also yields no chunk
files: `len()` raises.) -/
def process_all (chunk_size : Nat) (doc : Json) : Option (List (List Json)) :=
  match rag_load_data doc with
  | some (.arr props) => some (create_story_chunks chunk_size props)
  | _ => none

/-- The exception classes distinguished by the per-record formatting code:
`TypeError` and `IndexError` are caught at the coordinate block and
`ValueError`/`TypeError` inside the numeric conversions; `AttributeError`
(a string method on a non-string) is caught nowhere. -/
inductive PyErr where
  | typeError
  | valueError
  | attributeError
  | indexError
deriving Repr, DecidableEq

/-- Python `str.upper()` (ASCII model; the flood-zone markers compared
against are ASCII). -/
def pyUpper (s : String) : String := String.mk (s.data.map Char.toUpper)

/-- `safe_str` helper of the story generators:
`"" if value is None else str(value).strip()`. -/
def safe_str (v : Val) : String :=
  match v with
  | .null => ""
  | _ => pyStrip (pyStr v)

/-- CPython `int()` on a string: surrounding whitespace stripped, an
optional sign, then decimal digits. -/
def pyParseInt (s : String) : Option Int :=
  let t := trimChars s.data
  let sgn : Int := match t with
    | '-' :: _ => -1
    | _ => 1
  let body : List Char := match t with
    | '-' :: rest => rest
    | '+' :: rest => rest
    | _ => t
  if body ≠ [] ∧ allDigits body then some (sgn * (digitsVal body : Int)) else none

/-- Left-pad with zeros to a given width (`{:06d}`-style padding). -/
def padLeftZeros (w : Nat) (s : String) : String :=
  String.mk (List.replicate (w - s.length) '0' ++ s.data)

/-- `f"{n:06d}"` for the sequential ids of the training streams. -/
def fmt06d (n : Nat) : String := padLeftZeros 6 (toString n)

/-- Comma-group a digit run from the right (`{:,}` formatting). -/
def commaGroup (l : List Char) : List Char :=
  (List.intercalate [','] (chunkList 3 l.reverse)).reverse

/-- `f"{q:,.0f}"`: the value rounded to an integer and comma-grouped.
Rounds to nearest; IEEE ties-to-even differs only at exact halves, which no
settled claim exercises. -/
def fmtComma0 (q : ℚ) : String :=
  let n : Int := round q
  if n < 0 then String.mk ('-' :: commaGroup (toString n.natAbs).data)
  else String.mk (commaGroup (toString n.natAbs).data)

/-- `f"{q:.6f}"`: six decimal places, round to nearest. -/
def fixed6 (q : ℚ) : String :=
  let n : Int := round (q * 1000000)
  let sign := if n < 0 then "-" else ""
  let m := n.natAbs
  sign ++ toString (m / 1000000) ++ "." ++ padLeftZeros 6 (toString (m % 1000000))

/-- `f"{x:.6f}"` on a property value: numbers format; a string raises
`ValueError` (format code `f` on `str`) and `None` raises `TypeError`. -/
def formatFixed6 : Val → Except PyErr String
  | .int n => .ok (fixed6 (n : ℚ))
  | .float q => .ok (fixed6 q)
  | .bool b => .ok (fixed6 (if b then (1 : ℚ) else 0))
  | .null => .error .typeError
  | .str _ => .error .valueError

/-- The coordinate sentence of `_create_property_story`: guarded by
`if coordinates and len(coordinates) >= 2`, formats
`coordinates[1], coordinates[0]` with `:.6f` inside
`try ... except (IndexError, TypeError): pass` — so those two exception
classes contribute nothing while a `ValueError` (string coordinate)
propagates. -/
def coordSentence (coordinates : List Val) : Except PyErr (List String) :=
  if coordinates ≠ [] ∧ 2 ≤ coordinates.length then
    match coordinates with
    | c0 :: c1 :: _ =>
      match formatFixed6 c1 with
      | .ok slat =>
        match formatFixed6 c0 with
        | .ok slon =>
          .ok ["The property is located at coordinates " ++ slat ++ ", " ++ slon]
        | .error e =>
          if e = .typeError ∨ e = .indexError then .ok [] else .error e
      | .error e =>
        if e = .typeError ∨ e = .indexError then .ok [] else .error e
    | _ => .ok []
  else .ok []

/-- `_create_property_story`: the natural-language story assembled from the
extracted fields, every sentence guarded by `safe_str` emptiness checks and
`try`-wrapped numeric conversions; the parts are joined with `". "` and a
final period. -/
def _create_property_story (address owner zoning municipality neighborhood
    year_built trash_route : Val) (coordinates : List Val)
    (all_properties : List (String × Val)) : Except PyErr String := do
  let address_str := safe_str address
  let p0 : List String :=
    if address_str ≠ "" ∧ address_str ≠ "Unknown address" then
      ["The property located at " ++ address_str]
    else
      ["This property"]
  let municipality_str := safe_str municipality
  let neighborhood_str := safe_str neighborhood
  let location_info : List String :=
    (if municipality_str ≠ "" ∧ municipality_str ≠ "Unknown municipality" then
      ["in " ++ municipality_str] else [])
    ++ (if neighborhood_str ≠ "" ∧ neighborhood_str ≠ "Unknown neighborhood" then
      ["within the " ++ neighborhood_str ++ " neighborhood"] else [])
  let p1 := p0 ++ (if location_info ≠ [] then
      ["is situated " ++ String.intercalate " " location_info] else [])
  let owner_str := safe_str owner
  let p2 := p1 ++ (if owner_str ≠ "" ∧ owner_str ≠ "Unknown owner" then
      ["and is currently owned by " ++ owner_str]
    else ["and has no current owner listed"])
  let zoning_str := safe_str zoning
  let secondary_zoning :=
    safe_str ((all_properties.lookup "AddressPoints.SECONDARY_").getD (.str ""))
  let p3 := p2 ++ (if zoning_str ≠ "" ∧ zoning_str ≠ "Unknown zoning" then
      ["The property is zoned as " ++ zoning_str]
      ++ (if secondary_zoning ≠ "" then
        ["with secondary zoning of " ++ secondary_zoning] else [])
    else [])
  let lot_size := safe_str ((all_properties.lookup "AddressPoints.LOT_SIZE").getD (.str ""))
  let p4 := p3 ++ (if lot_size ≠ "" then
      match pyParseFloat lot_size with
      | some size => ["The lot size is " ++ fmtComma0 size ++ " square feet"]
      | none => ["The lot size is recorded as " ++ lot_size ++ " square feet"]
    else [])
  let year_built_str := safe_str year_built
  let p5 := p4 ++ (if year_built_str ≠ "" ∧ year_built_str ≠ "Unknown year" then
      match pyParseInt year_built_str with
      | some year => ["The building was constructed in " ++ toString year]
      | none => ["The building construction year is recorded as " ++ year_built_str]
    else [])
  let trash_route_str := safe_str trash_route
  let p6 := p5 ++ (if trash_route_str ≠ "" ∧ trash_route_str ≠ "Unknown route" then
      ["Trash collection is handled via route " ++ trash_route_str] else [])
  let recycling := safe_str ((all_properties.lookup "AddressPoints.Recycling").getD (.str ""))
  let p7 := p6 ++ (if recycling ≠ "" then
      ["Recycling is scheduled for " ++ recycling] else [])
  let garbage_days := safe_str ((all_properties.lookup "AddressPoints.GarbageR").getD (.str ""))
  let p8 := p7 ++ (if garbage_days ≠ "" then
      ["Garbage collection occurs on " ++ garbage_days] else [])
  let prop_type := safe_str ((all_properties.lookup "AddressPoints.PROP_TYPE").getD (.str ""))
  let p9 := p8 ++ (if prop_type ≠ "" then
      ["The property type is " ++ prop_type] else [])
  let sq_ft := safe_str ((all_properties.lookup "AddressPoints.SQ_FT").getD (.str ""))
  let p10 := p9 ++ (if sq_ft ≠ "" then
      ["The building size is " ++ sq_ft ++ " square feet"] else [])
  let units := safe_str ((all_properties.lookup "AddressPoints.UNITS").getD (.str ""))
  let p11 := p10 ++ (if units ≠ "" then
      ["The property has " ++ units ++ " units"] else [])
  let condo_flag := safe_str ((all_properties.lookup "AddressPoints.CONDO_FLAG").getD (.str ""))
  let p12 := p11 ++ (if condo_flag = "Y" then
      ["This is a condominium property"] else [])
  let historical := safe_str ((all_properties.lookup "AddressPoints.Historical").getD (.str ""))
  let p13 := p12 ++ (if historical = "Yes" then
      ["This property has historical designation"] else [])
  let total_val := safe_str ((all_properties.lookup "AddressPoints.TOTAL_VAL1").getD (.str ""))
  let p14 := p13 ++ (if total_val ≠ "" then
      match pyParseFloat total_val with
      | some value => ["The total property value is $" ++ fmtComma0 value]
      | none => ["The total property value is recorded as " ++ total_val]
    else [])
  let land_value := safe_str ((all_properties.lookup "AddressPoints.LAND_VAL_2").getD (.str ""))
  let p15 := p14 ++ (if land_value ≠ "" then
      match pyParseFloat land_value with
      | some value => ["The land value is $" ++ fmtComma0 value]
      | none => ["The land value is recorded as " ++ land_value]
    else [])
  let building_value :=
    safe_str ((all_properties.lookup "AddressPoints.BUILDING_V").getD (.str ""))
  let p16 := p15 ++ (if building_value ≠ "" then
      match pyParseFloat building_value with
      | some value => ["The building value is $" ++ fmtComma0 value]
      | none => ["The building value is recorded as " ++ building_value]
    else [])
  let mailing_address :=
    safe_str ((all_properties.lookup "AddressPoints.TRUE_MAILI").getD (.str ""))
  let p17 := p16 ++ (if mailing_address ≠ "" ∧ mailing_address ≠ address_str then
      ["The mailing address is " ++ mailing_address] else [])
  let coordParts ← coordSentence coordinates
  let p18 := p17 ++ coordParts
  let legal := safe_str ((all_properties.lookup "AddressPoints.LEGAL").getD (.str ""))
  let legal_short :=
    if 100 < legal.length then String.mk (legal.data.take 100) ++ "..." else legal
  let p19 := p18 ++ (if legal ≠ "" then
      ["The legal description is " ++ legal_short] else [])
  pure (String.intercalate ". " p19 ++ ".")

/-- `_get_flood_zone_answer`: reads `AddressPoints.FLOOD_ZONE` (default
`''`); a truthy value is `.strip()`ed — raising `AttributeError` when the
value is not a string — and a truthy stripped value answers yes or no by
whether its `.upper()` is one of `YES`, `TRUE`, `1`, `FLOOD`; otherwise the
information is reported unavailable. -/
def _get_flood_zone_answer (address : Val) (properties : List (String × Val)) :
    Except PyErr String :=
  let flood_zone := (properties.lookup "AddressPoints.FLOOD_ZONE").getD (.str "")
  if pyTruthy flood_zone then
    match flood_zone with
    | .str s =>
      if pyStrip s ≠ "" then
        if pyUpper s ∈ ["YES", "TRUE", "1", "FLOOD"] then
          .ok ("Yes, the property at " ++ pyStr address ++ " is located in a flood zone.")
        else
          .ok ("No, the property at " ++ pyStr address ++ " is not in a flood zone.")
      else
        .ok ("Flood zone information is not available for the property at "
          ++ pyStr address ++ ".")
    | _ => .error .attributeError
  else
    .ok ("Flood zone information is not available for the property at "
      ++ pyStr address ++ ".")

/-- One line of the Q&A training stream
(`{id, address, question, answer, context}`). -/
structure QaLine where
  id : String
  address : Val
  question : String
  answer : String
  context : String
deriving Repr, DecidableEq

/-- The story `generate_qa_pairs` computes for one record (same field
extraction as `generate_property_stories`). -/
def story_of (f : Feature) : Except PyErr String :=
  _create_property_story
    ((f.props.lookup "AddressPoints.TRUE_SITE_").getD (.str "Unknown address"))
    ((f.props.lookup "AddressPoints.TRUE_OWNER").getD (.str "Unknown owner"))
    ((f.props.lookup "AddressPoints.PRIMARY_ZO").getD (.str "Unknown zoning"))
    ((f.props.lookup "AddressPoints.MUNICIPALI").getD (.str "Unknown municipality"))
    ((f.props.lookup "AddressPoints.NEIGHBORHO").getD (.str "Unknown neighborhood"))
    ((f.props.lookup "AddressPoints.YEAR_BUILT").getD (.str "Unknown year"))
    ((f.props.lookup "AddressPoints_AddSpatialJoin_10.Route").getD (.str "Unknown route"))
    f.coords f.props

/-- The flood-zone answer `generate_qa_pairs` computes for one record. -/
def flood_of (f : Feature) : Except PyErr String :=
  _get_flood_zone_answer
    ((f.props.lookup "AddressPoints.TRUE_SITE_").getD (.str "Unknown address")) f.props

/-- The five Q&A lines written for the record at zero-based position `i`:
every line carries the one id `f"qa_{i+1:06d}"`. -/
def qaLines (i : Nat) (f : Feature) (story flood : String) : List QaLine :=
  let address := (f.props.lookup "AddressPoints.TRUE_SITE_").getD (.str "Unknown address")
  let addr := pyStr address
  let qid := "qa_" ++ fmt06d (i + 1)
  [⟨qid, address, "Tell me about the property at " ++ addr, story, story⟩,
   ⟨qid, address, "Who owns the property at " ++ addr ++ "?",
     "The property at " ++ addr ++ " is owned by "
       ++ pyStr ((f.props.lookup "AddressPoints.TRUE_OWNER").getD (.str "an unknown owner"))
       ++ ".", story⟩,
   ⟨qid, address, "What is the zoning for " ++ addr ++ "?",
     "The property at " ++ addr ++ " is zoned as "
       ++ pyStr ((f.props.lookup "AddressPoints.PRIMARY_ZO").getD (.str "unknown zoning"))
       ++ ".", story⟩,
   ⟨qid, address, "Is " ++ addr ++ " in a flood zone?", flood, story⟩,
   ⟨qid, address, "What trash route serves " ++ addr ++ "?",
     "The property at " ++ addr ++ " is served by trash route "
       ++ pyStr ((f.props.lookup
           "AddressPoints_AddSpatialJoin_10.Route").getD (.str "an unknown route"))
       ++ ".", story⟩]

/-- Per-record step of `generate_qa_pairs`: the story and the flood answer
are computed before any of the record's five lines is written, so a raise
loses the whole block. -/
def qaBlock (i : Nat) (f : Feature) : Except PyErr (List QaLine) :=
  match story_of f with
  | .error e => .error e
  | .ok story =>
    match flood_of f with
    | .error e => .error e
    | .ok flood => .ok (qaLines i f story flood)

/-- The write loop of `generate_qa_pairs`: blocks accumulate in order until
a record raises, which aborts the loop keeping the lines already written
(`false` marks an aborted run). -/
def generate_qa_pairs_loop : Nat → List Feature → List QaLine × Bool
  | _, [] => ([], true)
  | i, f :: rest =>
    match qaBlock i f with
    | .ok lines =>
      (lines ++ (generate_qa_pairs_loop (i + 1) rest).1,
        (generate_qa_pairs_loop (i + 1) rest).2)
    | .error _ => ([], false)

/-- `generate_qa_pairs`: the emitted Q&A line stream and whether the run
completed. -/
def generate_qa_pairs (fs : List Feature) : List QaLine × Bool :=
  generate_qa_pairs_loop 0 fs

/-- Property bag whose flood-zone value is the number 1. -/
def floodNumProps : List (String × Val) := [("AddressPoints.FLOOD_ZONE", .int 1)]

/-- Record carrying the numeric flood-zone value. -/
def floodNumRec : Feature := ⟨floodNumProps, []⟩

/-- A record with no properties and no geometry. -/
def emptyFeature : Feature := ⟨[], []⟩

theorem firstOccKeys_eq_foldl (l : List Val) : firstOccKeys l = l.foldl keyStep [] := rfl

theorem firstOccKeys_append_one (l : List Val) (k : Val) :
    firstOccKeys (l ++ [k]) = keyStep (firstOccKeys l) k := by
  simp [firstOccKeys_eq_foldl, List.foldl_append]

theorem foldl_keyStep_subset (l : List Val) (acc : List Val) :
    acc ⊆ l.foldl keyStep acc := by
  induction l generalizing acc with
  | nil => exact fun _ h => h
  | cons k t ih =>
    intro x hx
    refine ih (keyStep acc k) ?_
    unfold keyStep
    split
    · exact hx
    · exact List.mem_append_left _ hx

theorem foldl_keyStep_covers (l : List Val) (acc : List Val) :
    ∀ k ∈ l, ∃ k' ∈ l.foldl keyStep acc, pyEq k k' = true := by
  induction l generalizing acc with
  | nil => intro k hk; cases hk
  | cons a t ih =>
    intro k hk
    rcases List.mem_cons.1 hk with rfl | hk
    · -- the head is covered already after the first step
      by_cases h : acc.any (fun k' => pyEq k k') = true
      · rcases List.any_eq_true.1 h with ⟨k', hk', hpe⟩
        exact ⟨k', foldl_keyStep_subset t _ (by simp [keyStep, h, hk']), hpe⟩
      · refine ⟨k, foldl_keyStep_subset t _ ?_, pyEq_refl k⟩
        simp [keyStep, h]
    · exact ih (keyStep acc a) k hk

theorem mem_firstOccKeys_covers (l : List Val) :
    ∀ k ∈ l, ∃ k' ∈ firstOccKeys l, pyEq k k' = true :=
  foldl_keyStep_covers l []

theorem foldl_keyStep_pairwise (l : List Val) (acc : List Val)
    (hacc : acc.Pairwise (fun a b => pyEq b a = false)) :
    (l.foldl keyStep acc).Pairwise (fun a b => pyEq b a = false) := by
  induction l generalizing acc with
  | nil => exact hacc
  | cons k t ih =>
    refine ih (keyStep acc k) ?_
    unfold keyStep
    split
    · exact hacc
    · next h =>
      rw [List.pairwise_append]
      refine ⟨hacc, List.pairwise_singleton _ _, ?_⟩
      intro a ha b hb
      rcases List.mem_singleton.1 hb with rfl
      cases hba : pyEq b a with
      | false => rfl
      | true => exact absurd (List.any_eq_true.2 ⟨a, ha, by simp [hba]⟩) h

theorem firstOccKeys_pairwise (l : List Val) :
    (firstOccKeys l).Pairwise (fun a b => pyEq b a = false) :=
  foldl_keyStep_pairwise l [] (List.Pairwise.nil)

theorem addToGroup_map_fst (acc : List (Val × List Feature)) (k : Val) (r : Feature) :
    (addToGroup acc k r).map Prod.fst = keyStep (acc.map Prod.fst) k := by
  induction acc with
  | nil => simp [addToGroup, keyStep]
  | cons p rest ih =>
    obtain ⟨k', g⟩ := p
    by_cases h : pyEq k k' = true
    · simp [addToGroup, h, keyStep, pyEq_symm h]
    · have hstep : addToGroup ((k', g) :: rest) k r = (k', g) :: addToGroup rest k r := by
        simp [addToGroup, h]
      rw [hstep, List.map_cons, List.map_cons, ih]
      unfold keyStep
      by_cases h₂ : ((rest.map Prod.fst).any fun x => pyEq k x) = true
      · simp [List.any_cons, h, h₂]
      · simp [List.any_cons, h, h₂]

theorem addToGroup_miss (acc : List (Val × List Feature)) (k : Val) (r : Feature)
    (h : (acc.map Prod.fst).any (fun k' => pyEq k k') = false) :
    addToGroup acc k r = acc ++ [(k, [r])] := by
  induction acc with
  | nil => rfl
  | cons p rest ih =>
    obtain ⟨k', g⟩ := p
    simp only [List.map_cons, List.any_cons, Bool.or_eq_false_iff] at h
    simp [addToGroup, h.1, ih h.2]

theorem addToGroup_hit (acc : List (Val × List Feature)) (k : Val) (r : Feature)
    (hpw : (acc.map Prod.fst).Pairwise (fun a b => pyEq b a = false))
    (hhit : (acc.map Prod.fst).any (fun k' => pyEq k k') = true) :
    ∀ p ∈ addToGroup acc k r,
      (pyEq k p.1 = true ∧ ∃ g₀, (p.1, g₀) ∈ acc ∧ p.2 = g₀ ++ [r]) ∨
      (pyEq k p.1 = false ∧ p ∈ acc) := by
  induction acc with
  | nil => simp at hhit
  | cons q rest ih =>
    obtain ⟨k', g⟩ := q
    simp only [List.map_cons, List.pairwise_cons] at hpw
    by_cases h : pyEq k k' = true
    · intro p hp
      simp only [addToGroup, h, if_true, List.mem_cons] at hp
      rcases hp with rfl | hp
      · exact Or.inl ⟨h, g, List.mem_cons_self _ _, rfl⟩
      · refine Or.inr ⟨?_, List.mem_cons_of_mem _ hp⟩
        have hmem : p.1 ∈ rest.map Prod.fst := List.mem_map_of_mem Prod.fst hp
        have hfalse : pyEq p.1 k' = false := hpw.1 p.1 hmem
        by_contra hkp
        have hkp' : pyEq k p.1 = true := by
          cases hh : pyEq k p.1
          · exact absurd hh hkp
          · rfl
        have : pyEq p.1 k' = true := pyEq_trans (pyEq_symm hkp') h
        rw [hfalse] at this
        exact Bool.false_ne_true this
    · intro p hp
      have h' : pyEq k k' = false := by
        cases hh : pyEq k k'
        · rfl
        · exact absurd hh h
      simp only [addToGroup, h', Bool.false_eq_true, if_false, List.mem_cons] at hp
      rcases hp with rfl | hp
      · exact Or.inr ⟨h', List.mem_cons_self _ _⟩
      · have hhit' : (rest.map Prod.fst).any (fun x => pyEq k x) = true := by
          simp only [List.map_cons, List.any_cons, h', Bool.false_or] at hhit
          exact hhit
        rcases ih hpw.2 hhit' p hp with ⟨h₁, g₀, hg₀, h₂⟩ | ⟨h₁, h₂⟩
        · exact Or.inl ⟨h₁, g₀, List.mem_cons_of_mem _ hg₀, h₂⟩
        · exact Or.inr ⟨h₁, List.mem_cons_of_mem _ h₂⟩

/-- One loop iteration preserves the grouping invariant: keys are the first
occurrences of the processed prefix's keys, and every group is the
order-preserving restriction (filter) of the prefix to its key. -/
theorem addToGroup_preserves (f : Feature → Val) (pref : List Feature) (r : Feature)
    (acc : List (Val × List Feature))
    (hkeys : acc.map Prod.fst = firstOccKeys (pref.map f))
    (hgrp : ∀ p ∈ acc, p.2 = pref.filter (fun x => pyEq (f x) p.1)) :
    (addToGroup acc (f r) r).map Prod.fst = firstOccKeys ((pref ++ [r]).map f)
    ∧ ∀ p ∈ addToGroup acc (f r) r,
        p.2 = (pref ++ [r]).filter (fun x => pyEq (f x) p.1) := by
  have hpw : (acc.map Prod.fst).Pairwise (fun a b => pyEq b a = false) := by
    rw [hkeys]; exact firstOccKeys_pairwise _
  have hkeys' : (addToGroup acc (f r) r).map Prod.fst = firstOccKeys ((pref ++ [r]).map f) := by
    rw [addToGroup_map_fst, List.map_append, List.map_singleton, firstOccKeys_append_one, hkeys]
  refine ⟨hkeys', ?_⟩
  intro p hp
  rw [List.filter_append]
  by_cases hhit : ((acc.map Prod.fst).any fun k' => pyEq (f r) k') = true
  · rcases addToGroup_hit acc (f r) r hpw hhit p hp with ⟨h₁, g₀, hg₀, h₂⟩ | ⟨h₁, h₂⟩
    · have : g₀ = pref.filter (fun x => pyEq (f x) p.1) := hgrp (p.1, g₀) hg₀
      rw [h₂, this]
      simp [List.filter_singleton, h₁]
    · rw [hgrp p h₂]
      simp [List.filter_singleton, h₁]
  · have hmiss : ((acc.map Prod.fst).any fun k' => pyEq (f r) k') = false := by
      cases hh : (acc.map Prod.fst).any fun k' => pyEq (f r) k'
      · rfl
      · exact absurd hh hhit
    rw [addToGroup_miss acc (f r) r hmiss] at hp
    rcases List.mem_append.1 hp with hp | hp
    · -- untouched old group: the new record's key does not match
      have hne : pyEq (f r) p.1 = false := by
        cases hh : pyEq (f r) p.1
        · rfl
        · exfalso
          have : p.1 ∈ acc.map Prod.fst := List.mem_map_of_mem Prod.fst hp
          exact absurd (List.any_eq_true.2 ⟨p.1, this, hh⟩) (by simp [hmiss])
      rw [hgrp p hp]
      simp [List.filter_singleton, hne]
    · -- the freshly created group holds exactly the new record
      rcases List.mem_singleton.1 hp with rfl
      have hnil : pref.filter (fun x => pyEq (f x) (f r)) = [] := by
        rw [List.filter_eq_nil_iff]
        intro x hx
        rcases mem_firstOccKeys_covers (pref.map f) (f x)
            (List.mem_map_of_mem f hx) with ⟨k', hk', hpe⟩
        rw [← hkeys] at hk'
        intro hxr
        have : pyEq (f r) k' = true := pyEq_trans (pyEq_symm (by simpa using hxr)) hpe
        exact absurd (List.any_eq_true.2 ⟨k', hk', this⟩) (by simp [hmiss])
      simp [hnil, List.filter_singleton, pyEq_refl]

/-- Invariant carried through the whole grouping loop. -/
theorem partition_foldl_spec (f : Feature → Val) (D : List Feature)
    (acc : List (Val × List Feature)) (pref : List Feature)
    (hkeys : acc.map Prod.fst = firstOccKeys (pref.map f))
    (hgrp : ∀ p ∈ acc, p.2 = pref.filter (fun x => pyEq (f x) p.1)) :
    (D.foldl (fun a r => addToGroup a (f r) r) acc).map Prod.fst
        = firstOccKeys ((pref ++ D).map f)
    ∧ ∀ p ∈ D.foldl (fun a r => addToGroup a (f r) r) acc,
        p.2 = (pref ++ D).filter (fun x => pyEq (f x) p.1) := by
  induction D generalizing acc pref with
  | nil =>
    simp only [List.foldl_nil, List.append_nil]
    exact ⟨hkeys, hgrp⟩
  | cons r t ih =>
    have hstep := addToGroup_preserves f pref r acc hkeys hgrp
    have := ih (addToGroup acc (f r) r) (pref ++ [r]) hstep.1 hstep.2
    simpa [List.append_assoc] using this

/-- The keys of a keyed split are the distinct extracted keys in order of
first occurrence. -/
theorem partitionByKey_map_fst (f : Feature → Val) (D : List Feature) :
    (partitionByKey f D).map Prod.fst = firstOccKeys (D.map f) := by
  have := partition_foldl_spec f D [] [] (by rfl) (by intro p hp; cases hp)
  simpa using this.1

/-- Every group of a keyed split is the order-preserving restriction of the
dataset to the records whose key compares `==` to the group key. -/
theorem partitionByKey_groups (f : Feature → Val) (D : List Feature) :
    ∀ p ∈ partitionByKey f D, p.2 = D.filter (fun x => pyEq (f x) p.1) := by
  have := partition_foldl_spec f D [] [] (by rfl) (by intro p hp; cases hp)
  simpa using this.2

theorem join_addToGroup (acc : List (Val × List Feature)) (k : Val) (r : Feature) :
    ((addToGroup acc k r).map Prod.snd).flatten.Perm
      ((acc.map Prod.snd).flatten ++ [r]) := by
  induction acc with
  | nil => simp [addToGroup]
  | cons p rest ih =>
    obtain ⟨k', g⟩ := p
    by_cases h : pyEq k k' = true
    · have hstep : addToGroup ((k', g) :: rest) k r = (k', g ++ [r]) :: rest := by
        simp [addToGroup, h]
      rw [hstep, List.map_cons, List.flatten_cons, List.map_cons, List.flatten_cons,
        List.append_assoc, List.append_assoc]
      exact List.Perm.append_left g List.perm_append_comm
    · have hstep : addToGroup ((k', g) :: rest) k r = (k', g) :: addToGroup rest k r := by
        simp [addToGroup, h]
      rw [hstep, List.map_cons, List.flatten_cons, List.map_cons, List.flatten_cons,
        List.append_assoc]
      exact List.Perm.append_left g ih

/-- Concatenating the groups of a keyed split in insertion order is a
permutation of the dataset. -/
theorem partitionByKey_join_perm (f : Feature → Val) (D : List Feature) :
    ((partitionByKey f D).map Prod.snd).flatten.Perm D := by
  induction D using List.reverseRecOn with
  | nil => simp [partitionByKey]
  | append_singleton t r ih =>
    have hfold : partitionByKey f (t ++ [r])
        = addToGroup (partitionByKey f t) (f r) r := by
      simp [partitionByKey, List.foldl_append]
    rw [hfold]
    exact (join_addToGroup (partitionByKey f t) (f r) r).trans
      (ih.append_right [r])

/-- A key matched by `k` occurs exactly once in a pairwise-incompatible key
list that covers it. -/
theorem countP_pyEq_eq_one (l : List Val) (k : Val)
    (hpw : l.Pairwise (fun a b => pyEq b a = false))
    (hcov : ∃ k' ∈ l, pyEq k k' = true) :
    l.countP (fun k' => pyEq k k') = 1 := by
  induction l with
  | nil => rcases hcov with ⟨k', hk', _⟩; cases hk'
  | cons a t ih =>
    rw [List.pairwise_cons] at hpw
    by_cases h : pyEq k a = true
    · have hzero : t.countP (fun k' => pyEq k k') = 0 := by
        rw [List.countP_eq_zero]
        intro b hb
        have hba : pyEq b a = false := hpw.1 b hb
        intro hkb
        have : pyEq b a = true := pyEq_trans (pyEq_symm hkb) h
        rw [hba] at this
        exact Bool.false_ne_true this
      rw [List.countP_cons_of_pos _ _ h, hzero]
    · have h' : pyEq k a = false := by
        cases hh : pyEq k a
        · rfl
        · exact absurd hh h
      rw [List.countP_cons_of_neg _ _ (by simp [h'])]
      rcases hcov with ⟨k', hk', hpe⟩
      rcases List.mem_cons.1 hk' with rfl | hk'
      · rw [hpe] at h'; cases h'
      · exact ih hpw.2 ⟨k', hk', hpe⟩

/-- **C1.** Every keyed split (`split_by_owner`, `split_by_zoning`,
`split_by_trash_route`, `split_by_municipality`, `split_by_neighborhood`,
`split_by_year_built` — each is `partitionByKey` at its key extractor, as the
first six conjuncts record) partitions the dataset: concatenating the groups
in key-insertion order is a permutation of `D`, the groups are iterated in
first-occurrence order of their keys, each group is the order-preserving
restriction of `D` to its key (so its internal order is `D`'s relative
order), and every record of `D` lies in exactly one group. -/
theorem keyed_splits_partition_invariant (keyFn : Feature → Val) (D : List Feature) :
    split_by_owner D = partitionByKey ownerKey D
    ∧ split_by_zoning D = partitionByKey zoningKey D
    ∧ split_by_trash_route D = partitionByKey routeKey D
    ∧ split_by_municipality D = partitionByKey municipalityKey D
    ∧ split_by_neighborhood D = partitionByKey neighborhoodKey D
    ∧ split_by_year_built D = partitionByKey yearBuiltKey D
    ∧ ((partitionByKey keyFn D).map Prod.snd).flatten.Perm D
    ∧ (partitionByKey keyFn D).map Prod.fst = firstOccKeys (D.map keyFn)
    ∧ (∀ p ∈ partitionByKey keyFn D, p.2 = D.filter (fun x => pyEq (keyFn x) p.1))
    ∧ ∀ r ∈ D, (partitionByKey keyFn D).countP (fun p => decide (r ∈ p.2)) = 1 := by
  refine ⟨rfl, rfl, rfl, rfl, rfl, rfl, partitionByKey_join_perm keyFn D,
    partitionByKey_map_fst keyFn D, partitionByKey_groups keyFn D, ?_⟩
  intro r hr
  have hgrp := partitionByKey_groups keyFn D
  have hcongr : ∀ p ∈ partitionByKey keyFn D,
      (decide (r ∈ p.2) = true) ↔ ((fun q => pyEq (keyFn r) q.1) p = true) := by
    intro p hp
    rw [hgrp p hp]
    cases hk : pyEq (keyFn r) p.1 with
    | true => simp [List.mem_filter, hr, hk]
    | false => simp [List.mem_filter, hk]
  rw [List.countP_congr hcongr]
  have hmap : (partitionByKey keyFn D).countP (fun q => pyEq (keyFn r) q.1)
      = ((partitionByKey keyFn D).map Prod.fst).countP (fun k => pyEq (keyFn r) k) := by
    rw [List.countP_map]
    rfl
  rw [hmap, partitionByKey_map_fst]
  exact countP_pyEq_eq_one _ _ (firstOccKeys_pairwise _)
    (mem_firstOccKeys_covers _ _ (List.mem_map_of_mem keyFn hr))

/-- Witness for C1: in the Alice/Bob/Alice dataset the first record lies in
exactly one owner group. -/
theorem keyed_splits_partition_invariant_witness :
    (partitionByKey ownerKey exDataset).countP (fun p => decide (exA ∈ p.2)) = 1 :=
  (keyed_splits_partition_invariant ownerKey exDataset).2.2.2.2.2.2.2.2.2 exA
    (by decide)

/-- Counterexample to C2 as stated: under the year-built key the number
`2020` and the string `"2020"` have equal string coercions, yet
`split_by_year_built` places the two records in two distinct groups. -/
theorem string_coercion_grouping_cex :
    pyStr (yearBuiltKey yNum) = pyStr (yearBuiltKey yStr)
    ∧ (split_by_year_built yDataset).length = 2
    ∧ ¬ inSameGroup (split_by_year_built yDataset) yNum yStr := by
  refine ⟨by decide, by decide, ?_⟩
  unfold inSameGroup
  decide

/-- **C2** (amended).  Grouping compares the raw extracted key values with
Python `==`, not their string coercions: two records of a dataset land in the
same group exactly when their keys compare equal as values.  String coercion
is applied only to the output filename, so the numeric year `2020` and the
string `"2020"` form two distinct groups that collide on one filename. -/
theorem grouping_uses_raw_value_equality (keyFn : Feature → Val) (D : List Feature)
    (r s : Feature) (hr : r ∈ D) (hs : s ∈ D) :
    (inSameGroup (partitionByKey keyFn D) r s ↔ pyEq (keyFn r) (keyFn s) = true)
    ∧ year_built_filename (yearBuiltKey yNum) = year_built_filename (yearBuiltKey yStr) := by
  refine ⟨⟨?_, ?_⟩, by decide⟩
  · rintro ⟨p, hp, hrp, hsp⟩
    rw [partitionByKey_groups keyFn D p hp] at hrp hsp
    have h₁ : pyEq (keyFn r) p.1 = true := by
      simpa using (List.mem_filter.1 hrp).2
    have h₂ : pyEq (keyFn s) p.1 = true := by
      simpa using (List.mem_filter.1 hsp).2
    exact pyEq_trans h₁ (pyEq_symm h₂)
  · intro h
    rcases mem_firstOccKeys_covers (D.map keyFn) (keyFn r)
        (List.mem_map_of_mem keyFn hr) with ⟨k', hk', hpe⟩
    rw [← partitionByKey_map_fst] at hk'
    rcases List.mem_map.1 hk' with ⟨p, hp, hfst⟩
    refine ⟨p, hp, ?_, ?_⟩
    · rw [partitionByKey_groups keyFn D p hp, List.mem_filter]
      exact ⟨hr, by simpa [hfst] using hpe⟩
    · rw [partitionByKey_groups keyFn D p hp, List.mem_filter]
      refine ⟨hs, ?_⟩
      have : pyEq (keyFn s) k' = true := pyEq_trans (pyEq_symm h) hpe
      simpa [hfst] using this

/-- Witness for C2 (amended): applied to the mixed 2020-year dataset, the
two records are in the same group iff their raw keys compare equal (they do
not). -/
theorem grouping_uses_raw_value_equality_witness :
    (inSameGroup (partitionByKey yearBuiltKey yDataset) yNum yStr
      ↔ pyEq (yearBuiltKey yNum) (yearBuiltKey yStr) = true)
    ∧ year_built_filename (yearBuiltKey yNum) = year_built_filename (yearBuiltKey yStr) :=
  grouping_uses_raw_value_equality yearBuiltKey yDataset yNum yStr
    (by decide) (by decide)

/-- **C4.** The 50-character owner sanitizer is not injective past the
truncation bound: `"A"*60` and `"A"*60 ++ "B"` are distinct keys with the
same 50-character sanitized name, the two owner groups of the collision
dataset target one filename, and the overwriting last write leaves only the
second group's records in that file. -/
theorem sanitize_truncation_collision :
    longKeyA ≠ longKeyAB
    ∧ clean_key longKeyA 50 = clean_key longKeyAB 50
    ∧ (clean_key longKeyA 50).length = 50
    ∧ (owner_split_writes collisionDataset).map Prod.fst
        = [owner_filename longKeyA, owner_filename longKeyA]
    ∧ overwrite_result (owner_split_writes collisionDataset) (owner_filename longKeyA)
        = some [ownAB] := by
  refine ⟨by decide, by decide, by decide, by decide, by decide⟩

theorem chunkList_nil (n : Nat) : chunkList n ([] : List α) = [] := by
  simp [chunkList]

theorem chunkList_cons (n : Nat) (a : α) (t : List α) :
    chunkList n (a :: t) = (a :: t.take (n - 1)) :: chunkList n (t.drop (n - 1)) := by
  simp [chunkList]

theorem chunkList_cons_take_drop (n : Nat) (hn : 1 ≤ n) (a : α) (t : List α) :
    chunkList n (a :: t) = (a :: t).take n :: chunkList n ((a :: t).drop n) := by
  obtain ⟨m, rfl⟩ : ∃ m, n = m + 1 := ⟨n - 1, by omega⟩
  rw [chunkList_cons]
  simp [List.take_succ_cons, List.drop_succ_cons, Nat.add_sub_cancel]

theorem ceil_eq_pred_div_succ (L n : Nat) (hn : 1 ≤ n) (hL : 1 ≤ L) :
    (L + n - 1) / n = (L - 1) / n + 1 := by
  have h1 : L + n - 1 = (L - 1) + n := by omega
  rw [h1, Nat.add_div_right _ hn]

theorem ceil_zero (n : Nat) (hn : 1 ≤ n) : (0 + n - 1) / n = 0 :=
  Nat.div_eq_of_lt (by omega)

theorem ceil_div_succ (L n : Nat) (hn : 1 ≤ n) (hL : 1 ≤ L) :
    (L + n - 1) / n = ((L - n) + n - 1) / n + 1 := by
  rw [ceil_eq_pred_div_succ L n hn hL]
  congr 1
  rcases Nat.le_total n L with h | h
  · have h2 : (L - n) + n - 1 = L - 1 := by omega
    rw [h2]
  · have h2 : (L - n) + n - 1 = n - 1 := by omega
    rw [h2, Nat.div_eq_of_lt (by omega), Nat.div_eq_of_lt (by omega)]

theorem chunkList_eq_slices (n : Nat) (hn : 1 ≤ n) (l : List α) :
    chunkList n l = (List.range ((l.length + n - 1) / n)).map
      (fun j => (l.drop (j * n)).take n) := by
  have main : ∀ (k : Nat) (l : List α), l.length ≤ k →
      chunkList n l = (List.range ((l.length + n - 1) / n)).map
        (fun j => (l.drop (j * n)).take n) := by
    intro k
    induction k with
    | zero =>
      intro l hl
      obtain rfl : l = [] := List.eq_nil_of_length_eq_zero (Nat.le_zero.1 hl)
      rw [chunkList_nil]
      simp only [List.length_nil]
      rw [ceil_zero n hn]
      simp
    | succ k ih =>
      intro l hl
      match l with
      | [] =>
        rw [chunkList_nil]
        simp only [List.length_nil]
        rw [ceil_zero n hn]
        simp
      | a :: t =>
        have hrec : ((a :: t).drop n).length ≤ k := by
          rw [List.length_drop]
          simp only [List.length_cons] at hl ⊢
          omega
        rw [chunkList_cons_take_drop n hn, ih ((a :: t).drop n) hrec]
        have hc : (((a :: t).drop n).length + n - 1) / n
            = (((a :: t).length - n) + n - 1) / n := by rw [List.length_drop]
        rw [hc, ceil_div_succ (a :: t).length n hn (by simp),
          List.range_succ_eq_map, List.map_cons, List.map_map]
        congr 1
        · simp
        · refine List.map_congr_left ?_
          intro j hj
          simp only [Function.comp_apply]
          rw [List.drop_drop]
          have harith : n + j * n = Nat.succ j * n := by
            rw [Nat.succ_mul]
            omega
          rw [harith]
  exact main l.length l (Nat.le_refl _)

theorem create_story_chunks_eq (n : Nat) (_hn : 1 ≤ n) (l : List α) :
    create_story_chunks n l = split_by_chunk_size n l := by
  unfold create_story_chunks split_by_chunk_size
  refine List.map_congr_left ?_
  intro j hj
  have hexp : (j + 1) * n = j * n + n := by ring
  rw [hexp]
  have hlen : (l.drop (j * n)).length = l.length - j * n := List.length_drop _ _
  by_cases h : n ≤ l.length - j * n
  · have hmin : min (j * n + n) l.length - j * n = n := by omega
    rw [hmin]
  · rw [List.take_of_length_le (by omega), List.take_of_length_le (by omega)]

theorem chunkList_flatten (n : Nat) (_hn : 1 ≤ n) (l : List α) :
    (chunkList n l).flatten = l := by
  have main : ∀ (k : Nat) (l : List α), l.length ≤ k → (chunkList n l).flatten = l := by
    intro k
    induction k with
    | zero =>
      intro l hl
      obtain rfl : l = [] := List.eq_nil_of_length_eq_zero (Nat.le_zero.1 hl)
      simp [chunkList_nil]
    | succ k ih =>
      intro l hl
      match l with
      | [] => simp [chunkList_nil]
      | a :: t =>
        have hrec : (t.drop (n - 1)).length ≤ k := by
          rw [List.length_drop]
          simp only [List.length_cons] at hl
          omega
        rw [chunkList_cons, List.flatten_cons, ih (t.drop (n - 1)) hrec]
        simp [List.take_append_drop]
  exact main l.length l (Nat.le_refl _)

theorem chunkList_dropLast_length (n : Nat) (hn : 1 ≤ n) (l : List α) :
    ∀ c ∈ (chunkList n l).dropLast, c.length = n := by
  rw [chunkList_eq_slices n hn]
  intro c hc
  rcases Nat.eq_zero_or_pos ((l.length + n - 1) / n) with hz | hpos
  · simp [hz] at hc
  · obtain ⟨m, hm⟩ : ∃ m, (l.length + n - 1) / n = m + 1 :=
      ⟨_, (Nat.succ_pred_eq_of_pos hpos).symm⟩
    rw [hm, List.range_succ, List.map_append] at hc
    simp only [List.map_cons, List.map_nil] at hc
    rw [List.dropLast_concat] at hc
    rcases List.mem_map.1 hc with ⟨j, hj, rfl⟩
    rw [List.mem_range] at hj
    have hL : 1 ≤ l.length := by
      by_contra hc0
      have h0 : l.length = 0 := by omega
      rw [h0, Nat.div_eq_of_lt (by omega)] at hm
      omega
    have hm' : m = (l.length - 1) / n := by
      have := ceil_eq_pred_div_succ l.length n hn hL
      omega
    have hmul : (j + 1) * n ≤ l.length - 1 := by
      rw [hm'] at hj
      exact (Nat.le_div_iff_mul_le hn).1 (by omega)
    have hexp : (j + 1) * n = j * n + n := by ring
    rw [hexp] at hmul
    rw [List.length_take, List.length_drop]
    omega

theorem chunkList_chunk_bounds (n : Nat) (hn : 1 ≤ n) (l : List α) :
    ∀ c ∈ chunkList n l, c ≠ [] ∧ c.length ≤ n := by
  rw [chunkList_eq_slices n hn]
  intro c hc
  rcases List.mem_map.1 hc with ⟨j, hj, rfl⟩
  rw [List.mem_range] at hj
  have hL : 1 ≤ l.length := by
    by_contra hc0
    have h0 : l.length = 0 := by omega
    rw [h0, Nat.div_eq_of_lt (by omega)] at hj
    omega
  have hj' : j * n ≤ l.length - 1 := by
    have hceil := ceil_eq_pred_div_succ l.length n hn hL
    have hjle : j ≤ (l.length - 1) / n := by omega
    calc j * n ≤ ((l.length - 1) / n) * n := Nat.mul_le_mul_right n hjle
      _ ≤ l.length - 1 := Nat.div_mul_le_self _ _
  constructor
  · rw [← List.length_pos, List.length_take, List.length_drop]
    omega
  · rw [List.length_take]
    omega

/-- **C3.** For every chunk size `n ≥ 1`, positional chunking
(`split_by_chunk_size` of the splitter and `create_story_chunks` of the RAG
processor compute the same chunk list) yields exactly
`⌈len/n⌉ = (len + n - 1) / n` chunks, every chunk except possibly the last
has length exactly `n` (and every chunk is nonempty of length at most `n`),
and concatenating the chunks in order reconstructs the dataset. -/
theorem chunking_correct (n : Nat) (hn : 1 ≤ n) (D : List α) :
    split_by_chunk_size n D = chunkList n D
    ∧ create_story_chunks n D = chunkList n D
    ∧ (chunkList n D).length = (D.length + n - 1) / n
    ∧ (chunkList n D).flatten = D
    ∧ (∀ c ∈ (chunkList n D).dropLast, c.length = n)
    ∧ ∀ c ∈ chunkList n D, c ≠ [] ∧ c.length ≤ n := by
  have hs := (chunkList_eq_slices n hn D).symm
  refine ⟨hs, (create_story_chunks_eq n hn D).trans hs, ?_,
    chunkList_flatten n hn D, chunkList_dropLast_length n hn D,
    chunkList_chunk_bounds n hn D⟩
  rw [chunkList_eq_slices n hn D, List.length_map, List.length_range]

/-- Witness for C3: chunk size 2 on a five-record dataset gives three chunks
whose concatenation is the dataset. -/
theorem chunking_correct_witness :
    1 ≤ 2 ∧ (chunkList 2 ([0, 1, 2, 3, 4] : List Nat)).length = (5 + 2 - 1) / 2
      ∧ (chunkList 2 ([0, 1, 2, 3, 4] : List Nat)).flatten = [0, 1, 2, 3, 4] := by
  refine ⟨by decide, ?_, (chunking_correct 2 (by decide) ([0, 1, 2, 3, 4] : List Nat)).2.2.2.1⟩
  have h := (chunking_correct 2 (by decide) ([0, 1, 2, 3, 4] : List Nat)).2.2.1
  simpa using h

theorem charsLt_irrefl (a : List Char) : charsLt a a = false := by
  induction a with
  | nil => rfl
  | cons x xs ih => simp [charsLt, ih]

theorem charsLt_trans {a b c : List Char} (hab : charsLt a b = true)
    (hbc : charsLt b c = true) : charsLt a c = true := by
  induction a generalizing b c with
  | nil =>
    cases b with
    | nil => cases hab
    | cons y ys =>
      cases c with
      | nil => cases hbc
      | cons z zs => rfl
  | cons x xs ih =>
    cases b with
    | nil => cases hab
    | cons y ys =>
      cases c with
      | nil => cases hbc
      | cons z zs =>
        by_cases hxy : x = y
        · subst hxy
          by_cases hyz : x = z
          · subst hyz
            simp only [charsLt, if_pos rfl] at hab hbc ⊢
            exact ih hab hbc
          · simp only [charsLt, if_pos rfl] at hab
            simp only [charsLt, if_neg hyz] at hbc ⊢
            exact hbc
        · by_cases hyz : y = z
          · subst hyz
            simp only [charsLt, if_neg hxy] at hab ⊢
            exact hab
          · simp only [charsLt, if_neg hxy] at hab
            simp only [charsLt, if_neg hyz] at hbc
            have hlt : x < z := lt_trans (of_decide_eq_true hab) (of_decide_eq_true hbc)
            have hxz : ¬ x = z := ne_of_lt hlt
            simp [charsLt, if_neg hxz, hlt]

theorem charsLt_asymm {a b : List Char} (h : charsLt a b = true) :
    charsLt b a = false := by
  cases h2 : charsLt b a with
  | false => rfl
  | true =>
    have := charsLt_trans h h2
    rw [charsLt_irrefl] at this
    cases this

theorem charsLt_cases (a b : List Char) :
    a = b ∨ charsLt a b = true ∨ charsLt b a = true := by
  induction a generalizing b with
  | nil =>
    cases b with
    | nil => exact Or.inl rfl
    | cons y ys => exact Or.inr (Or.inl rfl)
  | cons x xs ih =>
    cases b with
    | nil => exact Or.inr (Or.inr rfl)
    | cons y ys =>
      by_cases hxy : x = y
      · subst hxy
        rcases ih ys with rfl | h | h
        · exact Or.inl rfl
        · exact Or.inr (Or.inl (by simp [charsLt, h]))
        · exact Or.inr (Or.inr (by simp [charsLt, h]))
      · rcases lt_trichotomy x y with h | h | h
        · exact Or.inr (Or.inl (by simp [charsLt, if_neg hxy, h]))
        · exact absurd h hxy
        · have hyx : ¬ y = x := fun hh => hxy hh.symm
          exact Or.inr (Or.inr (by simp [charsLt, if_neg hyx, h]))

theorem string_data_inj {a b : String} (h : a.data = b.data) : a = b := by
  cases a
  cases b
  simp only at h
  rw [h]

theorem pyStrLe_total (a b : String) : pyStrLe a b ∨ pyStrLe b a := by
  unfold pyStrLe
  cases h : charsLt b.data a.data with
  | false => exact Or.inl rfl
  | true => exact Or.inr (charsLt_asymm h)

theorem pyStrLe_trans {a b c : String} (hab : pyStrLe a b) (hbc : pyStrLe b c) :
    pyStrLe a c := by
  unfold pyStrLe at hab hbc ⊢
  cases h : charsLt c.data a.data with
  | false => rfl
  | true =>
    exfalso
    rcases charsLt_cases a.data b.data with heq | hlt | hlt
    · rw [heq] at h
      exact Bool.false_ne_true (hbc ▸ h)
    · have := charsLt_trans h hlt
      exact Bool.false_ne_true (hbc ▸ this)
    · exact Bool.false_ne_true (hab ▸ hlt)

theorem pyStrLe_ne_lt {a b : String} (hle : pyStrLe a b) (hne : a ≠ b) :
    pyStrLt a b := by
  unfold pyStrLe at hle
  unfold pyStrLt
  rcases charsLt_cases a.data b.data with heq | hlt | hlt
  · exact absurd (string_data_inj heq) hne
  · exact hlt
  · exact absurd hlt (by rw [hle]; exact Bool.false_ne_true)

theorem zip_map_lookup (f : String → Val) (fields : List String) :
    ∀ fld ∈ fields, (fields.zip (fields.map f)).lookup fld = some (f fld) := by
  induction fields with
  | nil => intro fld h; cases h
  | cons a t ih =>
    intro fld h
    by_cases hfa : fld = a
    · subst hfa
      simp [List.lookup]
    · have hne : (fld == a) = false := by simpa using hfa
      rcases List.mem_cons.1 h with rfl | h'
      · exact absurd rfl hfa
      · simpa [List.lookup, hne] using ih fld h'

/-- **C5.** For every group exported in tabular (CSV) form: the header is the
lexicographically (strictly) sorted union of the group's own property keys —
computed per group, as the `export_split_to_csv` conjunct shows — and the
export emits exactly one row per record in group order, each row holding the
record's original value for a present header field and the empty string for
an absent one (the zip/lookup conjunct). -/
theorem tabular_export_correct ( filename_prefix : String)
    (groups : List (Val × List Feature)) (g : List Feature) :
    (csvFields g).Sorted pyStrLt
    ∧ (∀ fld, fld ∈ csvFields g ↔ ∃ r ∈ g, fld ∈ r.props.map Prod.fst)
    ∧ (g.map (csvRow (csvFields g))).length = g.length
    ∧ (∀ i : Nat, (g.map (csvRow (csvFields g)))[i]? = (g[i]?).map (csvRow (csvFields g)))
    ∧ (∀ r ∈ g, ∀ fld ∈ csvFields g,
        ((csvFields g).zip (csvRow (csvFields g) r)).lookup fld
          = some ((r.props.lookup fld).getD (.str "")))
    ∧ (∀ p ∈ groups, p.2 ≠ [] →
        ( filename_prefix ++ "_" ++ clean_key p.1 50 ++ ".csv",
          csvFields p.2, p.2.map (csvRow (csvFields p.2)))
          ∈ export_split_to_csv filename_prefix groups)
    ∧ export_to_csv g = (csvFields g, g.map (csvRow (csvFields g))) := by
  have hperm : (csvFields g).Perm (allFields g) := List.perm_insertionSort _ _
  have hnodup : (csvFields g).Nodup := hperm.nodup_iff.2 (List.nodup_dedup _)
  refine ⟨?_, ?_, List.length_map _ _, ?_, ?_, ?_, rfl⟩
  · have hsortedLe : (csvFields g).Sorted pyStrLe := by
      haveI : IsTotal String pyStrLe := ⟨pyStrLe_total⟩
      haveI : IsTrans String pyStrLe := ⟨fun a b c hab hbc => pyStrLe_trans hab hbc⟩
      exact List.sorted_insertionSort _ _
    exact hsortedLe.imp₂ (fun a b hle hne => pyStrLe_ne_lt hle hne) hnodup
  · intro fld
    rw [hperm.mem_iff]
    unfold allFields
    rw [List.mem_dedup, List.mem_flatten]
    constructor
    · rintro ⟨l, hl, hfld⟩
      rcases List.mem_map.1 hl with ⟨r, hr, rfl⟩
      exact ⟨r, hr, hfld⟩
    · rintro ⟨r, hr, hfld⟩
      exact ⟨r.props.map Prod.fst, List.mem_map_of_mem _ hr, hfld⟩
  · intro i
    exact List.getElem?_map _ _ _
  · intro r _ fld hfld
    exact zip_map_lookup _ (csvFields g) fld hfld
  · intro p hp hne
    unfold export_split_to_csv
    refine List.mem_map.2 ⟨p, ?_, rfl⟩
    refine List.mem_filter.2 ⟨hp, ?_⟩
    simp [List.isEmpty_iff, hne]

/-- Witness for C5: in the heterogeneous example group, row 1 renders its
`"a"` field's original value through the sorted per-group header. -/
theorem tabular_export_correct_witness :
    ((csvFields csvG).zip (csvRow (csvFields csvG) csvR1)).lookup "a"
      = some ((csvR1.props.lookup "a").getD (.str "")) :=
  (tabular_export_correct "owner" [(unknown, csvG)] csvG).2.2.2.2.1 csvR1
    (by decide) "a" (by decide)

/-- Counterexample to C6 as stated: in `simple_data_analysis.py` a missing
input file prints a diagnostic and aborts the pipeline, but `main()` ignores
the `False` returned by `run_complete_analysis`, so the process exits
**zero**, not non-zero. -/
theorem analyzer_load_failure_exit_cex :
    analyzer_run LoadInput.missingFile = .aborted "Error: File not found"
    ∧ analyzer_exit_code LoadInput.missingFile = 0 :=
  ⟨rfl, rfl⟩

/-- **C6** (amended).  Both loaders distinguish the three failure shapes,
and a successfully parsed object whose type tag is not `'FeatureCollection'`
yields a warning plus an empty dataset after which the run continues and
exits zero.  But only the splitter exits non-zero on a missing file or
invalid JSON: the analyzer prints its diagnostic and aborts the pipeline,
yet its process still exits zero because `main()` discards the failure
flag. -/
theorem load_error_handling (fields : List (String × Json))
    (hty : tagIsFeatureCollection fields = false) :
    splitter_load_data .missingFile = .exited 1 "Error: File not found"
    ∧ splitter_load_data .invalidJson = .exited 1 "Error: Invalid JSON format"
    ∧ splitter_exit_code .missingFile = 1
    ∧ splitter_exit_code .invalidJson = 1
    ∧ splitter_load_data (.parsed (.obj fields))
        = .loaded (.arr []) (some "Warning: File is not a GeoJSON FeatureCollection")
    ∧ splitter_exit_code (.parsed (.obj fields)) = 0
    ∧ analyzer_run (.parsed (.obj fields))
        = .analyzed (.arr []) (some "Warning: File is not a GeoJSON FeatureCollection")
    ∧ analyzer_exit_code (.parsed (.obj fields)) = 0
    ∧ analyzer_run .missingFile = .aborted "Error: File not found"
    ∧ analyzer_run .invalidJson = .aborted "Error: Invalid JSON format"
    ∧ analyzer_exit_code .missingFile = 0
    ∧ analyzer_exit_code .invalidJson = 0 := by
  refine ⟨rfl, rfl, rfl, rfl, ?_, ?_, ?_, ?_, rfl, rfl, rfl, rfl⟩
  · simp [splitter_load_data, hty]
  · simp [splitter_exit_code, splitter_load_data, hty]
  · simp [analyzer_run, hty]
  · simp [analyzer_exit_code, analyzer_run, hty]

/-- Witness for C6 (amended): a parsed `{"type": "Topology"}` document keeps
both runs alive with exit status zero, and a missing file still exits zero
in the analyzer. -/
theorem load_error_handling_witness :
    analyzer_exit_code (.parsed (.obj topoFields)) = 0
    ∧ analyzer_exit_code .missingFile = 0 :=
  ⟨(load_error_handling topoFields rfl).2.2.2.2.2.2.2.1,
    (load_error_handling topoFields rfl).2.2.2.2.2.2.2.2.2.2.1⟩

/-- **C9.** `CoralGablesRAGProcessor.load_data` accepts exactly two parsed
shapes — a JSON array (taken directly as the record list) or a JSON object
containing the key `'properties'` — and for every other parsed document,
including a GeoJSON FeatureCollection object (which has `type` and
`features` keys but no `properties` key), it loads nothing and returns
`False`, so the whole pipeline produces no output. -/
theorem rag_load_data_shape (doc : Json) (n : Nat) :
    ((rag_load_data doc).isSome = true ↔
      ((∃ l, doc = .arr l)
        ∨ ∃ fields, doc = .obj fields ∧ (fields.lookup "properties").isSome = true))
    ∧ (∀ fields, doc = .obj fields → fields.lookup "properties" = none →
        rag_load_data doc = none ∧ process_all n doc = none)
    ∧ (∀ l, rag_load_data (.arr l) = some (.arr l))
    ∧ rag_load_data fcDoc = none
    ∧ process_all n fcDoc = none := by
  refine ⟨?_, ?_, fun l => rfl, rfl, rfl⟩
  · cases doc with
    | null => simp [rag_load_data]
    | bool b => simp [rag_load_data]
    | num q => simp [rag_load_data]
    | str s => simp [rag_load_data]
    | arr l => simp [rag_load_data]
    | obj fields => simp [rag_load_data]
  · rintro fields rfl hnone
    exact ⟨by simp [rag_load_data, hnone], by simp [process_all, rag_load_data, hnone]⟩

/-- Witness for C9: the FeatureCollection document loads no records and the
pipeline yields no output. -/
theorem rag_load_data_shape_witness :
    rag_load_data fcDoc = none ∧ process_all 100 fcDoc = none :=
  (rag_load_data_shape fcDoc 100).2.1
    [("type", .str "FeatureCollection"), ("features", .arr [])] rfl rfl

/-- Counterexample to C8 as stated: a record whose total value is `-1` is
classified into **no** bucket — every count of the distribution over the
one-record dataset is zero — so not every record falls into exactly one
bucket. -/
theorem value_bucket_negative_cex :
    total_value negValueRec = ((-1 : Int) : ℚ)
    ∧ (value_analysis [negValueRec]).map Prod.snd = [0, 0, 0, 0, 0, 0, 0] := by
  exact ⟨by decide, by decide⟩

/-- **C8** (amended).  `value_analysis` counts a record in a finite bucket
iff `low ≤ value < high` and in the top bucket iff `value ≥ 5M` (given
`value ≥ 0`, the source's extra `value > 0` conjunct there is implied);
every record with **nonnegative** total value is classified into exactly one
bucket (a negative value falls into none); and the distribution for total
values 50000 and 1200000 is exactly {Under $100k: 1, $1M-$2.5M: 1} with all
other buckets zero. -/
theorem value_analysis_buckets (v : ℚ) (hv : 0 ≤ v) :
    (∀ lo hi lbl, (lo, some hi, lbl) ∈ value_ranges →
        (inBucket v lo (some hi) = true ↔ lo ≤ v ∧ v < hi))
    ∧ (inBucket v 5000000 none = true ↔ 5000000 ≤ v)
    ∧ value_ranges.countP (fun r => inBucket v r.1 r.2.1) = 1
    ∧ value_analysis valDataset
        = [("Under $100k", 1), ("$100k-$250k", 0), ("$250k-$500k", 0),
           ("$500k-$1M", 0), ("$1M-$2.5M", 1), ("$2.5M-$5M", 0),
           ("Over $5M", 0)] := by
  refine ⟨?_, ?_, ?_, by decide⟩
  · intro lo hi lbl _
    simp [inBucket]
  · simp only [inBucket, Bool.and_eq_true, decide_eq_true_eq]
    constructor
    · exact fun h => h.1
    · exact fun h => ⟨h, lt_of_lt_of_le (by norm_num) h⟩
  · simp only [value_ranges, List.countP_cons, List.countP_nil, inBucket,
      Bool.and_eq_true, decide_eq_true_eq]
    rcases lt_or_le v 100000 with h1 | h1
    · have a2 : ¬ (100000 : ℚ) ≤ v := not_le.2 h1
      have a3 : ¬ (250000 : ℚ) ≤ v := fun h => a2 (le_trans (by norm_num) h)
      have a4 : ¬ (500000 : ℚ) ≤ v := fun h => a2 (le_trans (by norm_num) h)
      have a5 : ¬ (1000000 : ℚ) ≤ v := fun h => a2 (le_trans (by norm_num) h)
      have a6 : ¬ (2500000 : ℚ) ≤ v := fun h => a2 (le_trans (by norm_num) h)
      have a7 : ¬ (5000000 : ℚ) ≤ v := fun h => a2 (le_trans (by norm_num) h)
      simp [hv, h1, a2, a3, a4, a5, a6, a7]
    rcases lt_or_le v 250000 with h2 | h2
    · have b1 : ¬ v < 100000 := not_lt.2 h1
      have b3 : ¬ (250000 : ℚ) ≤ v := not_le.2 h2
      have b4 : ¬ (500000 : ℚ) ≤ v := fun h => b3 (le_trans (by norm_num) h)
      have b5 : ¬ (1000000 : ℚ) ≤ v := fun h => b3 (le_trans (by norm_num) h)
      have b6 : ¬ (2500000 : ℚ) ≤ v := fun h => b3 (le_trans (by norm_num) h)
      have b7 : ¬ (5000000 : ℚ) ≤ v := fun h => b3 (le_trans (by norm_num) h)
      simp [h1, h2, b1, b3, b4, b5, b6, b7]
    rcases lt_or_le v 500000 with h3 | h3
    · have c1 : ¬ v < 100000 := fun h => absurd (lt_of_le_of_lt h1 h) (by norm_num)
      have c2 : ¬ v < 250000 := not_lt.2 h2
      have c4 : ¬ (500000 : ℚ) ≤ v := not_le.2 h3
      have c5 : ¬ (1000000 : ℚ) ≤ v := fun h => c4 (le_trans (by norm_num) h)
      have c6 : ¬ (2500000 : ℚ) ≤ v := fun h => c4 (le_trans (by norm_num) h)
      have c7 : ¬ (5000000 : ℚ) ≤ v := fun h => c4 (le_trans (by norm_num) h)
      simp [h2, h3, c1, c2, c4, c5, c6, c7]
    rcases lt_or_le v 1000000 with h4 | h4
    · have d1 : ¬ v < 100000 := fun h => absurd (lt_of_le_of_lt h2 h) (by norm_num)
      have d2 : ¬ v < 250000 := fun h => absurd (lt_of_le_of_lt h3 h) (by norm_num)
      have d3 : ¬ v < 500000 := not_lt.2 h3
      have d5 : ¬ (1000000 : ℚ) ≤ v := not_le.2 h4
      have d6 : ¬ (2500000 : ℚ) ≤ v := fun h => d5 (le_trans (by norm_num) h)
      have d7 : ¬ (5000000 : ℚ) ≤ v := fun h => d5 (le_trans (by norm_num) h)
      simp [h3, h4, d1, d2, d3, d5, d6, d7]
    rcases lt_or_le v 2500000 with h5 | h5
    · have e1 : ¬ v < 100000 := fun h => absurd (lt_of_le_of_lt h3 h) (by norm_num)
      have e2 : ¬ v < 250000 := fun h => absurd (lt_of_le_of_lt h4 h) (by norm_num)
      have e3 : ¬ v < 500000 := fun h => absurd (lt_of_le_of_lt h4 h) (by norm_num)
      have e4 : ¬ v < 1000000 := not_lt.2 h4
      have e6 : ¬ (2500000 : ℚ) ≤ v := not_le.2 h5
      have e7 : ¬ (5000000 : ℚ) ≤ v := fun h => e6 (le_trans (by norm_num) h)
      simp [h4, h5, e1, e2, e3, e4, e6, e7]
    rcases lt_or_le v 5000000 with h6 | h6
    · have f1 : ¬ v < 100000 := fun h => absurd (lt_of_le_of_lt h4 h) (by norm_num)
      have f2 : ¬ v < 250000 := fun h => absurd (lt_of_le_of_lt h5 h) (by norm_num)
      have f3 : ¬ v < 500000 := fun h => absurd (lt_of_le_of_lt h5 h) (by norm_num)
      have f4 : ¬ v < 1000000 := fun h => absurd (lt_of_le_of_lt h5 h) (by norm_num)
      have f5 : ¬ v < 2500000 := not_lt.2 h5
      have f7 : ¬ (5000000 : ℚ) ≤ v := not_le.2 h6
      simp [h5, h6, f1, f2, f3, f4, f5, f7]
    · have g1 : ¬ v < 100000 := fun h => absurd (lt_of_le_of_lt h6 h) (by norm_num)
      have g2 : ¬ v < 250000 := fun h => absurd (lt_of_le_of_lt h6 h) (by norm_num)
      have g3 : ¬ v < 500000 := fun h => absurd (lt_of_le_of_lt h6 h) (by norm_num)
      have g4 : ¬ v < 1000000 := fun h => absurd (lt_of_le_of_lt h6 h) (by norm_num)
      have g5 : ¬ v < 2500000 := fun h => absurd (lt_of_le_of_lt h6 h) (by norm_num)
      have g6 : ¬ v < 5000000 := not_lt.2 h6
      have g7 : (0 : ℚ) < v := lt_of_lt_of_le (by norm_num) h6
      simp [h6, g1, g2, g3, g4, g5, g6, g7]

/-- Witness for C8 (amended): the value 0 is classified into exactly one
bucket, and the two-record distribution matches. -/
theorem value_analysis_buckets_witness :
    value_ranges.countP (fun r => inBucket (0 : ℚ) r.1 r.2.1) = 1
    ∧ value_analysis valDataset
        = [("Under $100k", 1), ("$100k-$250k", 0), ("$250k-$500k", 0),
           ("$500k-$1M", 0), ("$1M-$2.5M", 1), ("$2.5M-$5M", 0),
           ("Over $5M", 0)] :=
  ⟨(value_analysis_buckets 0 (le_refl 0)).2.2.1,
    (value_analysis_buckets 0 (le_refl 0)).2.2.2⟩

/-- Counterexample to C7 as stated: a record whose `FLOOD_ZONE` value is the
number `1` makes `_get_flood_zone_answer` raise `AttributeError`
(`(1).strip()`), which aborts the whole Q&A export: `generate_qa_pairs`
stops with no line emitted for any record. -/
theorem flood_zone_nonstring_raises_cex :
    _get_flood_zone_answer (.str "Unknown address") floodNumProps
      = .error .attributeError
    ∧ (generate_qa_pairs [floodNumRec]).2 = false
    ∧ (generate_qa_pairs [floodNumRec]).1 = [] :=
  ⟨rfl, rfl, rfl⟩

/-- **C7** (amended).  `safe_float` never raises — a conversion error inside
its `try` body yields the default `0.0` — and the `safe_str`-guarded story
fields substitute defaults likewise; but per-record formatting is **not**
total: `_get_flood_zone_answer` succeeds exactly when the record's
`FLOOD_ZONE` value, if truthy, is a string, and it raises `AttributeError`
on a truthy non-string value, in which case the record's Q&A block aborts
the whole export. -/
theorem per_record_formatting_safety (v address : Val)
    (properties : List (String × Val)) :
    (∀ e, safe_float_body v = .error e → safe_float v = 0)
    ∧ (∀ q, safe_float_body v = .ok q → safe_float v = q)
    ∧ ((_get_flood_zone_answer address properties).isOk = true ↔
        (pyTruthy ((properties.lookup "AddressPoints.FLOOD_ZONE").getD (.str "")) = true →
          ∃ s, (properties.lookup "AddressPoints.FLOOD_ZONE").getD (.str "") = .str s))
    ∧ (∀ i f rest, (qaBlock i f).isOk = false →
        (generate_qa_pairs_loop i (f :: rest)).2 = false) := by
  refine ⟨?_, ?_, ?_, ?_⟩
  · intro e h
    unfold safe_float
    rw [h]
  · intro q h
    unfold safe_float
    rw [h]
  · rcases hfz : (properties.lookup "AddressPoints.FLOOD_ZONE").getD (.str "")
        with _ | b | n | q | s
    · simp [_get_flood_zone_answer, hfz, pyTruthy, Except.isOk, Except.toBool]
    · cases b with
      | false => simp [_get_flood_zone_answer, hfz, pyTruthy, Except.isOk, Except.toBool]
      | true => simp [_get_flood_zone_answer, hfz, pyTruthy, Except.isOk, Except.toBool]
    · by_cases hn : n = 0
      · subst hn
        simp [_get_flood_zone_answer, hfz, pyTruthy, Except.isOk, Except.toBool]
      · have ht : pyTruthy (.int n) = true := by simp [pyTruthy, hn]
        simp [_get_flood_zone_answer, hfz, ht, Except.isOk, Except.toBool, hn]
    · by_cases hq : q = 0
      · subst hq
        simp [_get_flood_zone_answer, hfz, pyTruthy, Except.isOk, Except.toBool]
      · have ht : pyTruthy (.float q) = true := by simp [pyTruthy, hq]
        simp [_get_flood_zone_answer, hfz, ht, Except.isOk, Except.toBool, hq]
    · by_cases hs : s = ""
      · subst hs
        simp [_get_flood_zone_answer, hfz, pyTruthy, Except.isOk, Except.toBool]
      · have ht : pyTruthy (.str s) = true := by simp [pyTruthy, hs]
        simp only [_get_flood_zone_answer, hfz, ht, if_true]
        constructor
        · intro _
          exact fun _ => ⟨s, rfl⟩
        · intro _
          split
          · split <;> simp [Except.isOk, Except.toBool]
          · simp [Except.isOk, Except.toBool]
  · intro i f rest hfail
    have hunfold : generate_qa_pairs_loop i (f :: rest)
        = match qaBlock i f with
          | .ok lines =>
            (lines ++ (generate_qa_pairs_loop (i + 1) rest).1,
              (generate_qa_pairs_loop (i + 1) rest).2)
          | .error _ => ([], false) := rfl
    rcases hb : qaBlock i f with e | lines
    · rw [hunfold, hb]
    · rw [hb] at hfail
      simp [Except.isOk, Except.toBool] at hfail

/-- Witness for C7 (amended): the non-numeric string `"abc"` safely yields
`0.0`, and the numeric-flood-zone record aborts the Q&A loop. -/
theorem per_record_formatting_safety_witness :
    safe_float (.str "abc") = 0
    ∧ (generate_qa_pairs_loop 0 [floodNumRec]).2 = false :=
  ⟨(per_record_formatting_safety (.str "abc") (.str "X") floodNumProps).1
      "ValueError" rfl,
    (per_record_formatting_safety (.str "abc") (.str "X") floodNumProps).2.2.2
      0 floodNumRec [] rfl⟩

theorem qaLines_spec (i : Nat) (f : Feature) (story flood : String) :
    (qaLines i f story flood).length = 5
    ∧ ∀ l ∈ qaLines i f story flood, l.id = "qa_" ++ fmt06d (i + 1) := by
  refine ⟨rfl, ?_⟩
  intro l hl
  simp only [qaLines, List.mem_cons, List.not_mem_nil, or_false] at hl
  rcases hl with rfl | rfl | rfl | rfl | rfl <;> rfl

theorem qaBlock_spec (i : Nat) (f : Feature) (lines : List QaLine)
    (h : qaBlock i f = .ok lines) :
    lines.length = 5 ∧ ∀ l ∈ lines, l.id = "qa_" ++ fmt06d (i + 1) := by
  unfold qaBlock at h
  rcases h1 : story_of f with e | story <;> rw [h1] at h
  · exact Except.noConfusion h
  · rcases h2 : flood_of f with e | flood <;> rw [h2] at h
    · exact Except.noConfusion h
    · have hlines : qaLines i f story flood = lines := by
        injection h
      rw [← hlines]
      exact qaLines_spec i f story flood

theorem qa_loop_spec (fs : List Feature) : ∀ (k : Nat),
    (generate_qa_pairs_loop k fs).2 = true →
    (generate_qa_pairs_loop k fs).1.length = 5 * fs.length
    ∧ ∀ i j, i < fs.length → j < 5 →
        ((generate_qa_pairs_loop k fs).1[5 * i + j]?).map QaLine.id
          = some ("qa_" ++ fmt06d (k + i + 1)) := by
  induction fs with
  | nil =>
    intro k _
    exact ⟨rfl, fun i j hi _ => absurd hi (Nat.not_lt_zero i)⟩
  | cons f rest ih =>
    intro k hok
    have hunfold : generate_qa_pairs_loop k (f :: rest)
        = match qaBlock k f with
          | .ok lines =>
            (lines ++ (generate_qa_pairs_loop (k + 1) rest).1,
              (generate_qa_pairs_loop (k + 1) rest).2)
          | .error _ => ([], false) := rfl
    rcases hb : qaBlock k f with e | lines
    · rw [hunfold, hb] at hok
      simp at hok
    · rw [hunfold, hb] at hok ⊢
      dsimp only at hok ⊢
      obtain ⟨hl5, hids⟩ := qaBlock_spec k f lines hb
      obtain ⟨hlen, hrec⟩ := ih (k + 1) hok
      constructor
      · rw [List.length_append, hl5, hlen, List.length_cons]
        ring
      · intro i j hi hj
        cases i with
        | zero =>
          have hidx : 5 * 0 + j = j := by omega
          rw [hidx]
          have hjlt : j < lines.length := by omega
          rw [List.getElem?_append_left hjlt, List.getElem?_eq_getElem hjlt]
          have hmem : lines[j] ∈ lines := List.getElem_mem hjlt
          simp [hids _ hmem]
        | succ i' =>
          have hidx : 5 * (i' + 1) + j = lines.length + (5 * i' + j) := by
            rw [hl5]
            ring
          rw [hidx, List.getElem?_append_right (Nat.le_add_right _ _),
            Nat.add_sub_cancel_left]
          have hi' : i' < rest.length := by
            simp only [List.length_cons] at hi
            omega
          have := hrec i' j hi' hj
          have harith : k + 1 + i' + 1 = k + (i' + 1) + 1 := by omega
          rw [harith] at this
          exact this

/-- **C10.** Whenever `generate_qa_pairs` completes, it emits exactly five
question/answer lines per input record; all five lines produced from the
record at zero-based position `i` carry the one id
`"qa_" ++ f"{i+1:06d}"` — the id identifies the source record, and adjacent
lines of a block share it, so ids are not unique per output line. -/
theorem qa_pairs_five_lines_per_record (fs : List Feature)
    (hok : (generate_qa_pairs fs).2 = true) :
    (generate_qa_pairs fs).1.length = 5 * fs.length
    ∧ (∀ i j, i < fs.length → j < 5 →
        ((generate_qa_pairs fs).1[5 * i + j]?).map QaLine.id
          = some ("qa_" ++ fmt06d (i + 1)))
    ∧ ∀ i, i < fs.length →
        ((generate_qa_pairs fs).1[5 * i]?).map QaLine.id
          = ((generate_qa_pairs fs).1[5 * i + 1]?).map QaLine.id := by
  unfold generate_qa_pairs at hok ⊢
  obtain ⟨hlen, hids⟩ := qa_loop_spec fs 0 hok
  refine ⟨hlen, ?_, ?_⟩
  · intro i j hi hj
    have := hids i j hi hj
    simpa using this
  · intro i hi
    have h0 := hids i 0 hi (by omega)
    have h1 := hids i 1 hi (by omega)
    rw [show 5 * i + 0 = 5 * i from by omega] at h0
    rw [h0, h1]

/-- Witness for C10: one empty record yields a completed run with five
lines, the first of which carries id `qa_000001`. -/
theorem qa_pairs_five_lines_per_record_witness :
    (generate_qa_pairs [emptyFeature]).2 = true
    ∧ (generate_qa_pairs [emptyFeature]).1.length = 5 * 1
    ∧ ((generate_qa_pairs [emptyFeature]).1[5 * 0 + 0]?).map QaLine.id
        = some ("qa_" ++ fmt06d (0 + 1)) := by
  refine ⟨rfl, ?_, ?_⟩
  · have := (qa_pairs_five_lines_per_record [emptyFeature] rfl).1
    simpa using this
  · exact (qa_pairs_five_lines_per_record [emptyFeature] rfl).2.1 0 0
      (by decide) (by decide)

end CG
